import Mathlib

set_option maxRecDepth 8000

/-!
Verification of the GitGPT agent (`gitgpt_agent.py`): a shallow embedding of
the repository scanner, the context-assembly pipeline, the fallback blueprint,
the Mermaid renderer and the ask/diagram entry points, together with theorems
settling the specification claims.

Python strings are modelled as Lean `String` (with `List Char` for the
character-level operations: slicing, lowercasing, substring search).  Python
`None`-able values are `Option`, raised exceptions are `Except String`.
-/

/-- Characters of a string literal (model of a Python `str` value). -/
def S (s : String) : List Char := s.data

/-- Model of Python `str.lower()` as a character list (ASCII, as in the source data). -/
def lowerL (s : String) : List Char := s.data.map Char.toLower

/-- Model of Python `str.lower()` returning a string. -/
def lowerS (s : String) : String := ⟨s.data.map Char.toLower⟩

/-- Rebuild a string from its characters. -/
def strOfL (l : List Char) : String := ⟨l⟩

/-!  ## Repository scanner (`load_repository`, lines 239-299)  -/

/-- A record of the file index: `{path, language, content}` (line 132, 284-288). -/
structure FileRec where
  path : String
  language : String
  content : String
deriving DecidableEq, Repr

/-- `SKIP_EXTENSIONS` (lines 96-101). -/
def SKIP_EXTENSIONS : List String :=
  [".png", ".jpg", ".jpeg", ".gif", ".bmp", ".ico", ".svg",
   ".mp3", ".mp4", ".avi", ".wav", ".pdf", ".zip", ".tar",
   ".gz", ".exe", ".dll", ".so", ".dylib", ".whl", ".pyc",
   ".class", ".jar", ".lock", ".min.js", ".min.css"]

/-- `EXTENSION_MAP` (lines 42-85). -/
def EXTENSION_MAP : List (String × String) :=
  [(".py", "python"), (".js", "javascript"), (".ts", "typescript"),
   (".tsx", "typescript"), (".jsx", "javascript"), (".java", "java"),
   (".kt", "kotlin"), (".go", "go"), (".rs", "rust"), (".rb", "ruby"),
   (".php", "php"), (".cs", "csharp"), (".cpp", "cpp"), (".c", "c"),
   (".h", "c"), (".hpp", "cpp"), (".swift", "swift"), (".dart", "dart"),
   (".scala", "scala"), (".r", "r"), (".sql", "sql"), (".html", "html"),
   (".css", "css"), (".scss", "scss"), (".yaml", "yaml"), (".yml", "yaml"),
   (".json", "json"), (".xml", "xml"), (".md", "markdown"), (".txt", "text"),
   (".sh", "bash"), (".bat", "batch"), (".ps1", "powershell"),
   (".dockerfile", "dockerfile"), (".tf", "terraform"), (".proto", "protobuf"),
   (".graphql", "graphql"), (".toml", "toml"), (".ini", "ini"),
   (".cfg", "ini"), (".env", "text"), (".gitignore", "text")]

/-- `MAX_FILE_SIZE = 100_000` (line 103). -/
def MAX_FILE_SIZE : Nat := 100000

/-- Association-list lookup modelling `dict.get` on a string-keyed dict. -/
def alookup (l : List (String × String)) (key : String) : Option String :=
  match l with
  | [] => none
  | (k, v) :: t => if k = key then some v else alookup t key

/-- Model of `os.path.splitext(fname)[1]` for a bare file name (no directory
separators): the suffix starting at the last dot, except that a name whose
characters before the last dot are all dots has no extension (CPython
`genericpath._splitext`). -/
def splitextExt (fname : String) : String :=
  let rev := fname.data.reverse
  let extRev := rev.takeWhile (fun c => c ≠ '.')
  if extRev.length = rev.length then ""
  else
    let stem := fname.data.take (fname.data.length - extRev.length - 1)
    if stem.any (fun c => c ≠ '.') then strOfL ('.' :: extRev.reverse) else ""

/-- The scanner's per-file decision (body of the inner loop, lines 259-288):
extension skip-set check, the `Dockerfile` special case, extension-to-language
mapping, then the size gate.  Read errors are outside this pure model; the
relative path and the file content are supplied by the caller. -/
def scanFile (fname : String) (size : Nat) (content : String) (relPath : String) :
    Option FileRec :=
  let ext := lowerS (splitextExt fname)
  if ext ∈ SKIP_EXTENSIONS then none
  else
    let ext := if lowerS fname = "dockerfile" then ".dockerfile" else ext
    match alookup EXTENSION_MAP ext with
    | none => none
    | some language =>
      if MAX_FILE_SIZE < size ∨ size = 0 then none
      else some ⟨relPath, language, content⟩

/-- Model of `os.path.basename` for a relative path with `/` separators. -/
def baseName (p : String) : String := strOfL ((p.data.reverse.takeWhile (fun c => c ≠ '/')).reverse)

/-- A file handed to the scanner by `os.walk`: its path relative to the root,
its size, and its content. -/
structure RawFile where
  relPath : String
  size : Nat
  content : String

/-- Insert-or-increment on an insertion-ordered association list: model of
`stats[language] = stats.get(language, 0) + 1` (line 289) and of
`modules[module] = modules.get(module, 0) + 1` (line 626). -/
def upsertCount : List (String × Nat) → String → List (String × Nat)
  | [], k => [(k, 1)]
  | (a, n) :: t, k => if a = k then (a, n + 1) :: t else (a, n) :: upsertCount t k

/-- The pure core of `load_repository` (lines 239-299): filter the walked files
through the scanner and build the language statistics. -/
def load_repository (raw : List RawFile) : List FileRec × List (String × Nat) :=
  let index := raw.filterMap (fun r => scanFile (baseName r.relPath) r.size r.content r.relPath)
  (index, index.foldl (fun st f => upsertCount st f.language) [])

/-!  ## Context assembly: sorting, truncation (lines 538-613)  -/

/-- `priority_names` (lines 543-549). -/
def priority_names : List String :=
  ["main.py", "app.py", "index.js", "index.ts", "server.py",
   "server.js", "manage.py", "setup.py", "pyproject.toml",
   "package.json", "pom.xml", "build.gradle", "Cargo.toml",
   "docker-compose.yml", "docker-compose.yaml", "Dockerfile",
   "requirements.txt", "go.mod", "Makefile", "README.md"]

/-- Strict lexicographic order on character lists (Python `str` comparison by
code point). -/
def lexLt : List Char → List Char → Bool
  | [], [] => false
  | [], _ :: _ => true
  | _ :: _, [] => false
  | a :: as, b :: bs => if a < b then true else if b < a then false else lexLt as bs

/-- `sort_key(f) = (not is_priority, f["path"])` (lines 551-554), as a strict
comparison between two records. -/
def keyLt (f g : FileRec) : Bool :=
  let a := !(decide (baseName f.path ∈ priority_names))
  let b := !(decide (baseName g.path ∈ priority_names))
  if a = b then lexLt f.path.data g.path.data else (!a && b)

/-- Stable insertion step: `x` is placed after every element `y` with `lt y x`
(so, for a strict order, after all strictly-smaller keys and therefore after
every earlier element of equal key). -/
def insertByLt (lt : α → α → Bool) (x : α) : List α → List α
  | [] => [x]
  | y :: ys => if lt y x then y :: insertByLt lt x ys else x :: y :: ys

/-- Stable sort (model of Python's stable `sorted`/`list.sort`): elements are
inserted right-to-left, each before all elements its strict order does not
place first. -/
def sortByLt (lt : α → α → Bool) : List α → List α
  | [] => []
  | x :: xs => insertByLt lt x (sortByLt lt xs)

/-- The truncation marker appended to a cut chunk (lines 566 and 608). -/
def markerL : List Char := S "\n...(truncated)"

/-- Header of a key-snippet chunk: `f"\n--- {path} ({language}) ---\n"` (line 561). -/
def headerK (f : FileRec) : List Char :=
  S "\n--- " ++ f.path.data ++ S " (" ++ f.language.data ++ S ") ---\n"

/-- Header of a question-context chunk: `f"\n--- {path} ---\n"` (line 603). -/
def headerQ (f : FileRec) : List Char :=
  S "\n--- " ++ f.path.data ++ S " ---\n"

/-- The shared greedy budgeting loop of `_get_key_snippets` (lines 558-569) and
`_build_question_context` (lines 600-611), parameterised by the header shape:
append whole chunks while they fit; at the first chunk that would overflow,
append a truncated prefix when more than 200 units of budget remain, then stop. -/
def assembleParts (hd : FileRec → List Char) (budget : Nat) :
    List FileRec → Nat → List (List Char)
  | [], _ => []
  | f :: fs, total =>
    let chunk := hd f ++ f.content.data
    if budget < total + chunk.length then
      if 200 < budget - total then
        [hd f ++ f.content.data.take (budget - total) ++ markerL]
      else []
    else chunk :: assembleParts hd budget fs (total + chunk.length)

/-- Python `"\n".join(parts)`. -/
def joinNL : List (List Char) → List Char
  | [] => []
  | [p] => p
  | p :: ps => p ++ S "\n" ++ joinNL ps

/-- `_get_key_snippets` (lines 538-571): priority-then-path stable sort, then
the budgeting loop, joined by newlines. -/
def get_key_snippets (files : List FileRec) (max_chars : Nat) : List Char :=
  joinNL (assembleParts headerK max_chars (sortByLt keyLt files) 0)

/-!  ## Question-relevance scoring (`_build_question_context`, lines 577-613)  -/

/-- Python `\w` (ASCII word character, as all tokens exercised here are ASCII). -/
def isWordChar (c : Char) : Bool := c.isAlphanum || c = '_'

/-- Accumulator pass splitting a character list into its maximal runs of word
characters (the matches of `\b\w+\b`). -/
def wordRunsAux : List Char → List Char → List (List Char)
  | [], acc => if acc = [] then [] else [acc.reverse]
  | c :: cs, acc =>
    if isWordChar c then wordRunsAux cs (c :: acc)
    else if acc = [] then wordRunsAux cs [] else acc.reverse :: wordRunsAux cs []

/-- Maximal word-character runs of a character list. -/
def wordRuns (l : List Char) : List (List Char) := wordRunsAux l []

/-- First-occurrence deduplication with an explicit seen accumulator. -/
def dedupFirstAux [DecidableEq α] (seen : List α) : List α → List α
  | [] => []
  | a :: l => if a ∈ seen then dedupFirstAux seen l else a :: dedupFirstAux (a :: seen) l

/-- First-occurrence deduplication (model of collecting into a Python `set`;
the set's iteration order does not affect the commutative score sum). -/
def dedupFirst [DecidableEq α] (l : List α) : List α := dedupFirstAux [] l

/-- `set(re.findall(r'\b\w{3,}\b', question.lower()))` (line 588): the distinct
lowercase word tokens of length at least 3. -/
def questionTokens (question : String) : List (List Char) :=
  dedupFirst ((wordRuns (lowerL question)).filter (fun r => 3 ≤ r.length))

/-- Python `w in s` on strings: contiguous-substring test. -/
def inStr (w l : List Char) : Bool := decide (w <:+: l)

/-- The scoring loop of `_build_question_context` (lines 583-593): 5 per token
occurring in the lowered path, 1 per token occurring in the lowered content. -/
def scoreFile (toks : List (List Char)) (f : FileRec) : Nat :=
  toks.foldl
    (fun s w =>
      let s1 := if inStr w (lowerL f.path) then s + 5 else s
      if inStr w (lowerL f.content) then s1 + 1 else s1)
    0

/-- The scored list `[(score, f) for f in file_index]` in scan order (line 595). -/
def scoredOf (question : String) (files : List FileRec) : List (Nat × FileRec) :=
  files.map (fun f => (scoreFile (questionTokens question) f, f))

/-- `scored.sort(key=lambda x: x[0], reverse=True)` comparison: `y` stays before
`x` exactly when its score is strictly larger. -/
def ltDesc (y x : Nat × FileRec) : Bool := decide (x.1 < y.1)

/-- `_build_question_context` (lines 577-613): score, stable-descending sort,
budgeting loop with the plain header, newline join, placeholder when nothing
was appended. -/
def build_question_context (question : String) (files : List FileRec) (max_chars : Nat) :
    List Char :=
  let sorted := sortByLt ltDesc (scoredOf question files)
  let parts := assembleParts headerQ max_chars (sorted.map Prod.snd) 0
  if parts = [] then S "(No relevant files found)" else joinNL parts

/-!  ## `ask` (lines 336-363)  -/

/-- The LLM gateway as an oracle: a prompt is answered with text or raises. -/
def Oracle := String → Except String String

/-- The question-answer prompt template of `ask` (lines 345-359). -/
def askPrompt (summary context question : String) : String :=
  "You are an expert software engineer who has full access to a codebase.\nUse ONLY the provided code context to answer the user\x27s question.\nIf the answer is not in the code, say so.\n\nPROJECT SUMMARY:\n"
    ++ summary
    ++ "\n\nRELEVANT CODE CONTEXT:\n"
    ++ context
    ++ "\n\nUSER QUESTION:\n"
    ++ question
    ++ "\n\nProvide a clear, detailed answer. Include file paths and code references where applicable.\n"

/-- `ask` (lines 336-363), returning the answer together with the number of
LLM-gateway invocations performed. -/
def ask (index : List FileRec) (summary question : String) (oracle : Oracle) :
    String × Nat :=
  if index = [] then ("No repository loaded. Please load a repository first.", 0)
  else
    let context := strOfL (build_question_context question index 14000)
    match oracle (askPrompt summary context question) with
    | .ok a => (a, 1)
    | .error e => ("Error: " ++ e, 1)

/-!  ## JSON values and Python dict/list primitives  -/

/-- A parsed JSON value (the possible results of `json.loads`; numbers are
modelled as integers, the only numeric values produced in this pipeline). -/
inductive JVal where
  | str (s : String)
  | num (n : Int)
  | bool (b : Bool)
  | null
  | arr (xs : List JVal)
  | obj (kvs : List (String × JVal))

/-- Insertion-ordered dict lookup. -/
def jlookup (kvs : List (String × JVal)) (key : String) : Option JVal :=
  match kvs with
  | [] => none
  | (k, v) :: t => if k = key then some v else jlookup t key

/-- Python `d[key]` subscription: `KeyError` on a missing key, `TypeError` when
the value is not a dict (string/list subscription with a string index raises). -/
def pySub (v : JVal) (key : String) : Except String JVal :=
  match v with
  | .obj kvs =>
    match jlookup kvs key with
    | some x => .ok x
    | none => .error ("KeyError: " ++ key)
  | _ => .error ("TypeError: value is not subscriptable by " ++ key)

/-- Python `d.get(key, default)`: only dicts have `.get` (`AttributeError`
otherwise). -/
def pyGet (v : JVal) (key : String) (default : JVal) : Except String JVal :=
  match v with
  | .obj kvs => .ok ((jlookup kvs key).getD default)
  | _ => .error "AttributeError: object has no attribute get"

/-- Python `d.setdefault(key, default)`: appends the key at the end when
missing; `AttributeError` on a non-dict. -/
def pySetdefault (v : JVal) (key : String) (default : JVal) : Except String JVal :=
  match v with
  | .obj kvs =>
    .ok (.obj (if (jlookup kvs key).isSome then kvs else kvs ++ [(key, default)]))
  | _ => .error "AttributeError: object has no attribute setdefault"

/-- Replace-in-place-or-append assignment on an insertion-ordered dict. -/
def setAssoc : List (String × JVal) → String → JVal → List (String × JVal)
  | [], k, x => [(k, x)]
  | (a, v) :: t, k, x => if a = k then (a, x) :: t else (a, v) :: setAssoc t k x

/-- Python `d[key] = x`: `TypeError` on a non-dict. -/
def pySetKey (v : JVal) (key : String) (x : JVal) : Except String JVal :=
  match v with
  | .obj kvs => .ok (.obj (setAssoc kvs key x))
  | _ => .error "TypeError: value does not support item assignment"

/-- Python `len(v)`: lists, strings and dicts have a length; `TypeError`
otherwise. -/
def pyLen (v : JVal) : Except String Nat :=
  match v with
  | .arr xs => .ok xs.length
  | .str s => .ok s.length
  | .obj kvs => .ok kvs.length
  | _ => .error "TypeError: object has no len"

/-- Python `for x in v`: lists yield their elements, strings their characters
(as one-character strings), dicts their keys; `TypeError` otherwise. -/
def pyIter (v : JVal) : Except String (List JVal) :=
  match v with
  | .arr xs => .ok xs
  | .str s => .ok (s.data.map (fun c => JVal.str ⟨[c]⟩))
  | .obj kvs => .ok (kvs.map (fun kv => JVal.str kv.1))
  | _ => .error "TypeError: object is not iterable"

/-- Python truthiness of a JSON value. -/
def pyTruthy (v : JVal) : Bool :=
  match v with
  | .str s => !(s = "")
  | .num n => !(n = 0)
  | .bool b => b
  | .null => false
  | .arr xs => !(xs.isEmpty)
  | .obj kvs => !(kvs.isEmpty)

/-- Python `v == "lit"` for a string literal: only equal strings compare true. -/
def jeqStr (v : JVal) (s : String) : Bool :=
  match v with
  | .str t => t = s
  | _ => false

/-- Python `", ".join`-style concatenation with a separator. -/
def joinWith (sep : String) : List String → String
  | [] => ""
  | [x] => x
  | x :: xs => x ++ sep ++ joinWith sep xs

/-- Python `repr` of a JSON value (quote escaping inside strings elided — no
theorem below exercises it). -/
def pyRepr : JVal → String
  | .str s => "\x27" ++ s ++ "\x27"
  | .num n => toString n
  | .bool b => if b then "True" else "False"
  | .null => "None"
  | .arr xs => "[" ++ joinWith ", " (xs.attach.map (fun x => pyRepr x.1)) ++ "]"
  | .obj kvs =>
    "\x7b" ++
      joinWith ", "
        (kvs.attach.map (fun kv => "\x27" ++ kv.1.1 ++ "\x27: " ++ pyRepr kv.1.2))
      ++ "\x7d"
decreasing_by
  · have := List.sizeOf_lt_of_mem x.2
    simp only [JVal.arr.sizeOf_spec]
    omega
  · have h1 := List.sizeOf_lt_of_mem kv.2
    have h2 : sizeOf kv.1.2 < sizeOf kv.1 := by
      obtain ⟨a, b⟩ := kv.1
      simp only [Prod.mk.sizeOf_spec]
      omega
    simp only [JVal.obj.sizeOf_spec]
    omega

/-- Python `f"{v}"` / `str(v)`: strings verbatim, other values via `repr`
(which coincides with `str` on the values at hand). -/
def pyFStr (v : JVal) : String :=
  match v with
  | .str s => s
  | _ => pyRepr v

/-!  ## Mermaid renderer (`_blueprint_to_mermaid`, lines 463-524)  -/

/-- One sequence-diagram edge line (lines 472-474):
`label = edge.get("label", "")`, then `f"    {edge['from']}->>{edge['to']}: {label}"`. -/
def seqEdgeLine (edge : JVal) : Except String String :=
  match pyGet edge "label" (.str "") with
  | .error e => .error e
  | .ok label =>
    match pySub edge "from" with
    | .error e => .error e
    | .ok f =>
      match pySub edge "to" with
      | .error e => .error e
      | .ok t => .ok ("    " ++ pyFStr f ++ "->>" ++ pyFStr t ++ ": " ++ pyFStr label)

/-- One class-diagram node block (line 480). -/
def classNodeLine (node : JVal) : Except String String :=
  match pySub node "id" with
  | .error e => .error e
  | .ok i =>
    match pySub node "label" with
    | .error e => .error e
    | .ok l =>
      .ok ("    class " ++ pyFStr i ++ " \x7b\n        " ++ pyFStr l ++ "\n    \x7d")

/-- One class-diagram edge line (lines 481-483). -/
def classEdgeLine (edge : JVal) : Except String String :=
  match pyGet edge "label" (.str "") with
  | .error e => .error e
  | .ok label =>
    match pySub edge "from" with
    | .error e => .error e
    | .ok f =>
      match pySub edge "to" with
      | .error e => .error e
      | .ok t => .ok ("    " ++ pyFStr f ++ " --> " ++ pyFStr t ++ " : " ++ pyFStr label)

/-- One flowchart-family node line with its type-dependent bracket shape
(lines 496-512). -/
def flowNodeLine (node : JVal) : Except String String :=
  match pySub node "id" with
  | .error e => .error e
  | .ok nid =>
    match pySub node "label" with
    | .error e => .error e
    | .ok label =>
      match pyGet node "type" (.str "component") with
      | .error e => .error e
      | .ok ntype =>
        if jeqStr ntype "database" then
          .ok ("    " ++ pyFStr nid ++ "[(" ++ pyFStr label ++ ")]")
        else if jeqStr ntype "external" then
          .ok ("    " ++ pyFStr nid ++ "[/" ++ pyFStr label ++ "/]")
        else if jeqStr ntype "actor" then
          .ok ("    " ++ pyFStr nid ++ "((" ++ pyFStr label ++ "))")
        else if jeqStr ntype "module" || jeqStr ntype "class" then
          .ok ("    " ++ pyFStr nid ++ "[" ++ pyFStr label ++ "]")
        else if jeqStr ntype "service" then
          .ok ("    " ++ pyFStr nid ++ "[" ++ pyFStr label ++ "]")
        else
          .ok ("    " ++ pyFStr nid ++ "[" ++ pyFStr label ++ "]")

/-- One flowchart-family edge line (lines 515-522). -/
def flowEdgeLine (edge : JVal) : Except String String :=
  match pySub edge "from" with
  | .error e => .error e
  | .ok src =>
    match pySub edge "to" with
    | .error e => .error e
    | .ok tgt =>
      match pyGet edge "label" (.str "") with
      | .error e => .error e
      | .ok label =>
        if pyTruthy label then
          .ok ("    " ++ pyFStr src ++ " -->|" ++ pyFStr label ++ "| " ++ pyFStr tgt)
        else
          .ok ("    " ++ pyFStr src ++ " --> " ++ pyFStr tgt)

/-- The `for` loops collecting rendered lines, stopping at the first raised
exception. -/
def forLines (l : List JVal) (f : JVal → Except String String) :
    Except String (List String) :=
  match l with
  | [] => .ok []
  | x :: xs =>
    match f x with
    | .error e => .error e
    | .ok y =>
      match forLines xs f with
      | .error e => .error e
      | .ok ys => .ok (y :: ys)

/-- `_blueprint_to_mermaid` (lines 463-524). -/
def blueprint_to_mermaid (blueprint : JVal) (diagram_type : String) :
    Except String String :=
  match pyGet blueprint "nodes" (.arr []) with
  | .error e => .error e
  | .ok nodes =>
    match pyGet blueprint "edges" (.arr []) with
    | .error e => .error e
    | .ok edges =>
      match pyGet blueprint "layout" (.str "top-down") with
      | .error e => .error e
      | .ok layout =>
        if diagram_type = "SEQUENCE_DIAGRAM" then
          match pyIter edges with
          | .error e => .error e
          | .ok es =>
            match forLines es seqEdgeLine with
            | .error e => .error e
            | .ok lines => .ok (strOfL (joinNL (("sequenceDiagram" :: lines).map S)))
        else if diagram_type = "CLASS_DIAGRAM" then
          match pyIter nodes with
          | .error e => .error e
          | .ok ns =>
            match forLines ns classNodeLine with
            | .error e => .error e
            | .ok nlines =>
              match pyIter edges with
              | .error e => .error e
              | .ok es =>
                match forLines es classEdgeLine with
                | .error e => .error e
                | .ok elines =>
                  .ok (strOfL (joinNL (("classDiagram" :: (nlines ++ elines)).map S)))
        else
          let header :=
            if diagram_type = "FLOWCHART" then
              if jeqStr layout "top-down" then "flowchart TD" else "flowchart LR"
            else if diagram_type = "DATA_FLOW_DIAGRAM" then "graph LR"
            else "graph TB"
          match pyIter nodes with
          | .error e => .error e
          | .ok ns =>
            match forLines ns flowNodeLine with
            | .error e => .error e
            | .ok nlines =>
              match pyIter edges with
              | .error e => .error e
              | .ok es =>
                match forLines es flowEdgeLine with
                | .error e => .error e
                | .ok elines =>
                  .ok (strOfL (joinNL ((header :: (nlines ++ elines)).map S)))

/-!  ## Fallback blueprint (`_fallback_blueprint`, lines 619-646)  -/

/-- Split a character list at a separator (Python `str.split(sep)` for a
one-character separator). -/
def splitOnCharAux (sep : Char) : List Char → List Char → List (List Char)
  | [], acc => [acc.reverse]
  | c :: cs, acc =>
    if c = sep then acc.reverse :: splitOnCharAux sep cs []
    else splitOnCharAux sep cs (c :: acc)

/-- Python `s.split(sep)` for a one-character separator. -/
def splitOnChar (sep : Char) (l : List Char) : List (List Char) :=
  splitOnCharAux sep l []

/-- `parts = f["path"].split(os.sep); parts[0] if len(parts) > 1 else "root"`
(lines 624-625), with the POSIX separator. -/
def topSegment (path : String) : String :=
  match splitOnChar '/' path.data with
  | p :: _ :: _ => strOfL p
  | _ => "root"

/-- `re.sub(r'[^a-zA-Z0-9_]', '_', mod).lower()` (line 630). -/
def slugify (s : String) : String :=
  ⟨(s.data.map (fun c => if c.isAlphanum || c = '_' then c else '_')).map Char.toLower⟩

/-- The group-count dict of `_fallback_blueprint` (lines 622-626), in key
insertion order. -/
def modulesOf (index : List FileRec) : List (String × Nat) :=
  index.foldl (fun m f => upsertCount m (topSegment f.path)) []

/-- A fallback node `{"id": slug, "label": mod, "type": "module"}` (line 631). -/
def mkNodeJ (mod : String) : JVal :=
  .obj [("id", .str (slugify mod)), ("label", .str mod), ("type", .str "module")]

/-- A fallback edge `{"from": a, "to": b, "label": ""}` (line 636). -/
def mkEdgeJ (a b : String) : JVal :=
  .obj [("from", .str a), ("to", .str b), ("label", .str "")]

/-- `_fallback_blueprint` (lines 619-646): group files by top-level path
segment, one module node per group, a linear chain of edges between
consecutive node ids (`for i in range(len(node_ids) - 1)`). -/
def fallback_blueprint (index : List FileRec) : JVal :=
  let modules := modulesOf index
  let nodes := modules.map (fun m => mkNodeJ m.1)
  let node_ids := modules.map (fun m => slugify m.1)
  let edges := (node_ids.zip node_ids.tail).map (fun p => mkEdgeJ p.1 p.2)
  .obj
    [("diagram_type", .str "ARCHITECTURE_DIAGRAM"),
     ("title", .str "Project Modules"),
     ("description", .str "Fallback: top-level directory modules."),
     ("granularity", .str "low"),
     ("layout", .str "top-down"),
     ("nodes", .arr nodes),
     ("edges", .arr edges)]

/-!  ## `generate_diagram` (lines 369-457)  -/

/-- The result dict of `generate_diagram` (lines 452-457). -/
structure DiagResult where
  diagram_type : String
  diagram : String
  description : JVal
  blueprint : JVal

/-- `generate_diagram` (lines 369-457).  The `try` block around the LLM call
and the JSON parse (lines 435-439) is abstracted by `outcome`: `none` when
either step raised (any `Exception`), `some v` when the response parsed to the
JSON value `v`; in the `none` case the deterministic fallback is used.  All
later steps propagate exceptions. -/
def generate_diagram (index : List FileRec) (diagram_type focus : String)
    (outcome : Option JVal) : Except String DiagResult :=
  if index.isEmpty then
    .ok ⟨diagram_type, "", .str "No repository loaded.", .obj []⟩
  else
    let blueprint :=
      match outcome with
      | some v => v
      | none => fallback_blueprint index
    match pySetdefault blueprint "nodes" (.arr []) with
    | .error e => .error e
    | .ok bp1 =>
      match pySetdefault bp1 "edges" (.arr []) with
      | .error e => .error e
      | .ok bp2 =>
        match pySub bp2 "nodes" with
        | .error e => .error e
        | .ok nodesV =>
          match pyLen nodesV with
          | .error e => .error e
          | .ok node_count =>
            match pySub bp2 "edges" with
            | .error e => .error e
            | .ok edgesV =>
              match pyLen edgesV with
              | .error e => .error e
              | .ok edge_count =>
                match pySetKey bp2 "metadata"
                    (.obj [("node_count", .num node_count),
                           ("edge_count", .num edge_count)]) with
                | .error e => .error e
                | .ok bp3 =>
                  match blueprint_to_mermaid bp3 diagram_type with
                  | .error e => .error e
                  | .ok diagram_code =>
                    match pyGet bp3 "description" (.str "") with
                    | .error e => .error e
                    | .ok desc => .ok ⟨diagram_type, diagram_code, desc, bp3⟩

/-!  ## Session state (`GitGPTAgent.__init__`, lines 125-134)  -/

/-- The mutable session fields of the agent. -/
structure AgentState where
  repo_path : Option String
  file_index : List FileRec
  project_summary : String
  cloned_dir : Option String

/-- `ask` as a state transformer: the method reads `self.file_index` and
`self.project_summary` and assigns no field. -/
def askS (s : AgentState) (question : String) (oracle : Oracle) :
    AgentState × (String × Nat) :=
  (s, ask s.file_index s.project_summary question oracle)

/-- `generate_diagram` as a state transformer: the method reads
`self.file_index` and assigns no field. -/
def generate_diagramS (s : AgentState) (diagram_type focus : String)
    (outcome : Option JVal) : AgentState × Except String DiagResult :=
  (s, generate_diagram s.file_index diagram_type focus outcome)

/-- `Except.isOk`-style discriminator. -/
def exOk (x : Except String DiagResult) : Bool :=
  match x with
  | .ok _ => true
  | .error _ => false

/-- The diagram text of a result (empty when an exception escaped). -/
def diagramText (x : Except String DiagResult) : String :=
  match x with
  | .ok r => r.diagram
  | .error _ => ""

/-!  ## Statement-side definitions used by the claim theorems  -/

/-- Total length of a list of parts. -/
def sumLens (parts : List (List Char)) : Nat := (parts.map List.length).sum

/-- The largest header length over a file list (0 when empty). -/
def maxHd (hd : FileRec → List Char) (files : List FileRec) : Nat :=
  (files.map (fun f => (hd f).length)).foldr max 0

/-- The node list stored in a blueprint (empty when absent or ill-shaped). -/
def jNodes (bp : JVal) : List JVal :=
  match bp with
  | .obj kvs =>
    match jlookup kvs "nodes" with
    | some (.arr l) => l
    | _ => []
  | _ => []

/-- The edge list stored in a blueprint (empty when absent or ill-shaped). -/
def jEdges (bp : JVal) : List JVal :=
  match bp with
  | .obj kvs =>
    match jlookup kvs "edges" with
    | some (.arr l) => l
    | _ => []
  | _ => []

/-- The node ids declared by a blueprint. -/
def jIds (bp : JVal) : List String :=
  (jNodes bp).filterMap
    (fun n =>
      match n with
      | .obj kvs =>
        match jlookup kvs "id" with
        | some (.str s) => some s
        | _ => none
      | _ => none)

/-- An edge whose `from` and `to` are strings naming declared node ids. -/
def edgeRefsOk (ids : List String) (e : JVal) : Bool :=
  match e with
  | .obj kvs =>
    (match jlookup kvs "from" with
     | some (.str a) => decide (a ∈ ids)
     | _ => false) &&
    (match jlookup kvs "to" with
     | some (.str b) => decide (b ∈ ids)
     | _ => false)
  | _ => false

/-- A well-formed node object: a dict with string `id` and `label`. -/
def WFnode (n : JVal) : Prop :=
  ∃ kvs i l, n = .obj kvs ∧
    jlookup kvs "id" = some (.str i) ∧ jlookup kvs "label" = some (.str l)

/-- A well-formed edge object: a dict with string `from` and `to`. -/
def WFedge (e : JVal) : Prop :=
  ∃ kvs a b, e = .obj kvs ∧
    jlookup kvs "from" = some (.str a) ∧ jlookup kvs "to" = some (.str b)

/-- A well-formed parsed blueprint: a dict whose `nodes` and `edges` entries
(when present; the defaults are empty arrays) are arrays of well-formed node
and edge objects. -/
def WFBp (v : JVal) : Prop :=
  ∃ kvs ns es, v = .obj kvs ∧
    (jlookup kvs "nodes").getD (.arr []) = .arr ns ∧
    (jlookup kvs "edges").getD (.arr []) = .arr es ∧
    (∀ n ∈ ns, WFnode n) ∧ (∀ e ∈ es, WFedge e)

/-- Modelled from the spec: the bracket shape the renderer is claimed to give a
node of each type in the flowchart-family dialects (database cylinder,
external parallelogram, actor circle, rectangle otherwise), as characters. -/
def specNodeShape (i l t : String) : List Char :=
  if t = "database" then i.data ++ S "[(" ++ l.data ++ S ")]"
  else if t = "external" then i.data ++ S "[/" ++ l.data ++ S "/]"
  else if t = "actor" then i.data ++ S "((" ++ l.data ++ S "))"
  else i.data ++ S "[" ++ l.data ++ S "]"

/-- Modelled from the spec: the claimed edge rendering in the flowchart-family
dialects (`from --> to`, or `from -->|label| to` for a non-empty label). -/
def specEdgeLine (a b lb : String) : List Char :=
  if lb = "" then a.data ++ S " --> " ++ b.data
  else a.data ++ S " -->|" ++ lb.data ++ S "| " ++ b.data

/-- A single-node blueprint literal used by the renderer claims. -/
def mkNodeJ3 (i l t : String) : JVal :=
  .obj [("id", .str i), ("label", .str l), ("type", .str t)]

/-- A single-edge blueprint literal used by the renderer claims. -/
def mkEdgeJ3 (a b lb : String) : JVal :=
  .obj [("from", .str a), ("to", .str b), ("label", .str lb)]

/-- A blueprint dict holding the given node and edge arrays. -/
def mkBp (ns es : List JVal) : JVal :=
  .obj [("nodes", .arr ns), ("edges", .arr es)]

/-!  ## Helper lemmas  -/

theorem insertByLt_perm (lt : α → α → Bool) (x : α) (l : List α) :
    (insertByLt lt x l).Perm (x :: l) := by
  induction l with
  | nil => exact List.Perm.refl _
  | cons y ys ih =>
    simp only [insertByLt]
    split
    · exact (ih.cons y).trans (List.Perm.swap x y ys)
    · exact List.Perm.refl _

theorem sortByLt_perm (lt : α → α → Bool) (l : List α) : (sortByLt lt l).Perm l := by
  induction l with
  | nil => exact List.Perm.refl _
  | cons x xs ih => exact (insertByLt_perm lt x _).trans (ih.cons x)

theorem insertByLt_filter_desc (x : Nat × FileRec) (l : List (Nat × FileRec)) (s : Nat) :
    (insertByLt ltDesc x l).filter (fun p => p.1 == s) =
      if x.1 == s then x :: l.filter (fun p => p.1 == s)
      else l.filter (fun p => p.1 == s) := by
  induction l with
  | nil =>
    by_cases hx : (x.1 == s) = true <;> simp [insertByLt, List.filter_cons, hx]
  | cons y ys ih =>
    simp only [insertByLt]
    split
    next hlt =>
      by_cases hx : (x.1 == s) = true
      · have h1 : x.1 < y.1 := by simpa [ltDesc] using hlt
        have h2 : x.1 = s := by simpa using hx
        have hy : (y.1 == s) = false := by
          rw [beq_eq_false_iff_ne]
          omega
        simp [List.filter_cons, hy, ih, hx]
      · simp [List.filter_cons, ih, hx]
    next hlt =>
      rw [List.filter_cons]

theorem sortByLt_filter_desc (l : List (Nat × FileRec)) (s : Nat) :
    (sortByLt ltDesc l).filter (fun p => p.1 == s) = l.filter (fun p => p.1 == s) := by
  induction l with
  | nil => rfl
  | cons x xs ih =>
    simp only [sortByLt, insertByLt_filter_desc, ih, List.filter_cons]

theorem insertByLt_sorted_desc (x : Nat × FileRec) (l : List (Nat × FileRec))
    (h : l.Pairwise (fun a b => b.1 ≤ a.1)) :
    (insertByLt ltDesc x l).Pairwise (fun a b => b.1 ≤ a.1) := by
  induction l with
  | nil => simp [insertByLt]
  | cons y ys ih =>
    rcases List.pairwise_cons.1 h with ⟨hy, hys⟩
    simp only [insertByLt]
    split
    next hlt =>
      refine List.pairwise_cons.2 ⟨?_, ih hys⟩
      intro a ha
      have hmem : a = x ∨ a ∈ ys := by
        simpa using (insertByLt_perm ltDesc x ys).mem_iff.1 ha
      rcases hmem with rfl | ha'
      · have : a.1 < y.1 := by simpa [ltDesc] using hlt
        omega
      · exact hy a ha'
    next hlt =>
      refine List.pairwise_cons.2 ⟨?_, h⟩
      intro a ha
      have hyx : y.1 ≤ x.1 := by
        have : ¬ x.1 < y.1 := by simpa [ltDesc] using hlt
        omega
      rcases List.mem_cons.1 ha with rfl | ha'
      · exact hyx
      · exact le_trans (hy a ha') hyx

theorem sortByLt_sorted_desc (l : List (Nat × FileRec)) :
    (sortByLt ltDesc l).Pairwise (fun a b => b.1 ≤ a.1) := by
  induction l with
  | nil => simp [sortByLt]
  | cons x xs ih => exact insertByLt_sorted_desc x _ ih

theorem scoreFold_eq (f : FileRec) (toks : List (List Char)) (acc : Nat) :
    toks.foldl
      (fun s w =>
        let s1 := if inStr w (lowerL f.path) then s + 5 else s
        if inStr w (lowerL f.content) then s1 + 1 else s1) acc
      = acc + 5 * toks.countP (fun w => inStr w (lowerL f.path))
          + toks.countP (fun w => inStr w (lowerL f.content)) := by
  induction toks generalizing acc with
  | nil => simp
  | cons w ts ih =>
    simp only [List.foldl_cons, List.countP_cons]
    rw [ih]
    by_cases hp : inStr w (lowerL f.path) = true <;>
      by_cases hc : inStr w (lowerL f.content) = true <;>
        simp [hp, hc] <;> omega

theorem scoreFile_eq (toks : List (List Char)) (f : FileRec) :
    scoreFile toks f
      = 5 * toks.countP (fun w => inStr w (lowerL f.path))
          + toks.countP (fun w => inStr w (lowerL f.content)) := by
  unfold scoreFile
  simpa using scoreFold_eq f toks 0

theorem assembleParts_sum_le (hd : FileRec → List Char) (budget : Nat)
    (l : List FileRec) (total : Nat) :
    sumLens (assembleParts hd budget l total)
      ≤ (budget - total) + maxHd hd l + markerL.length := by
  induction l generalizing total with
  | nil => simp [assembleParts, sumLens]
  | cons f fs ih =>
    simp only [assembleParts]
    split
    next hover =>
      split
      next hrem =>
        simp only [sumLens, List.map_cons, List.map_nil, List.sum_cons, List.sum_nil,
          List.length_append, List.length_take, maxHd, List.foldr_cons]
        have hle : ((hd f).length : Nat)
            ≤ max (hd f).length ((fs.map (fun g => (hd g).length)).foldr max 0) :=
          Nat.le_max_left _ _
        omega
      next => simp [sumLens]
    next hfit =>
      have h1 := ih (total + (hd f ++ f.content.data).length)
      have hfit2 : total + (hd f ++ f.content.data).length ≤ budget := Nat.le_of_not_lt hfit
      have hmax : maxHd hd fs ≤ maxHd hd (f :: fs) := by
        simp only [maxHd, List.map_cons, List.foldr_cons]
        exact Nat.le_max_right _ _
      simp only [sumLens, List.map_cons, List.sum_cons] at h1 ⊢
      simp only [maxHd, List.map_cons, List.foldr_cons] at h1 hmax ⊢
      omega

theorem assembleParts_count_le (hd : FileRec → List Char) (budget : Nat)
    (l : List FileRec) (total : Nat) :
    (assembleParts hd budget l total).length ≤ l.length := by
  induction l generalizing total with
  | nil => simp [assembleParts]
  | cons f fs ih =>
    simp only [assembleParts]
    split
    · split <;> simp
    · simpa using Nat.succ_le_succ (ih _)

theorem joinNL_length_le (parts : List (List Char)) :
    (joinNL parts).length ≤ sumLens parts + parts.length := by
  induction parts with
  | nil => simp [joinNL, sumLens]
  | cons p ps ih =>
    cases ps with
    | nil => simp [joinNL, sumLens]
    | cons q qs =>
      have hdef : joinNL (p :: q :: qs) = p ++ S "\n" ++ joinNL (q :: qs) := rfl
      rw [hdef]
      have hS : (S "\n").length = 1 := rfl
      simp only [List.length_append, hS, sumLens, List.map_cons, List.sum_cons,
        List.length_cons] at ih ⊢
      omega

theorem foldr_max_perm {l1 l2 : List Nat} (h : l1.Perm l2) :
    l1.foldr max 0 = l2.foldr max 0 := by
  induction h with
  | nil => rfl
  | cons x _ ih => simp [ih]
  | swap x y l => simp only [List.foldr_cons]; exact max_left_comm _ _ _
  | trans _ _ ih1 ih2 => rw [ih1, ih2]

theorem maxHd_perm (hd : FileRec → List Char) {l1 l2 : List FileRec} (h : l1.Perm l2) :
    maxHd hd l1 = maxHd hd l2 :=
  foldr_max_perm (h.map _)

theorem upsertCount_keys (m : List (String × Nat)) (k : String) :
    (upsertCount m k).map Prod.fst =
      if k ∈ m.map Prod.fst then m.map Prod.fst else m.map Prod.fst ++ [k] := by
  induction m with
  | nil => simp [upsertCount]
  | cons a t ih =>
    obtain ⟨x, n⟩ := a
    by_cases hx : x = k
    · subst hx
      simp [upsertCount, List.map_cons, List.mem_cons]
    · have hx2 : ¬ k = x := fun h => hx h.symm
      simp only [upsertCount, if_neg hx, List.map_cons, ih, List.mem_cons, hx2, false_or]
      split <;> simp

theorem dedupFirstAux_congr [DecidableEq α] (l : List α) (seen1 seen2 : List α)
    (h : ∀ a, a ∈ seen1 ↔ a ∈ seen2) :
    dedupFirstAux seen1 l = dedupFirstAux seen2 l := by
  induction l generalizing seen1 seen2 with
  | nil => rfl
  | cons a t ih =>
    simp only [dedupFirstAux]
    by_cases ha : a ∈ seen1
    · rw [if_pos ha, if_pos ((h a).1 ha)]
      exact ih _ _ h
    · rw [if_neg ha, if_neg (fun hc => ha ((h a).2 hc))]
      rw [ih (a :: seen1) (a :: seen2) (fun b => by simp [List.mem_cons, h b])]

theorem foldl_upsert_keys (l : List String) (acc : List (String × Nat)) :
    ((l.foldl upsertCount acc).map Prod.fst)
      = acc.map Prod.fst ++ dedupFirstAux (acc.map Prod.fst) l := by
  induction l generalizing acc with
  | nil => simp [dedupFirstAux]
  | cons k t ih =>
    simp only [List.foldl_cons, dedupFirstAux]
    rw [ih]
    by_cases hk : k ∈ acc.map Prod.fst
    · rw [upsertCount_keys, if_pos hk, if_pos hk]
    · rw [upsertCount_keys, if_neg hk, if_neg hk]
      rw [dedupFirstAux_congr t (acc.map Prod.fst ++ [k]) (k :: acc.map Prod.fst)
        (fun a => by simp [List.mem_append, List.mem_cons, or_comm])]
      simp

theorem modulesOf_keys (index : List FileRec) :
    (modulesOf index).map Prod.fst
      = dedupFirst (index.map (fun f => topSegment f.path)) := by
  unfold modulesOf dedupFirst
  rw [show index.foldl (fun m f => upsertCount m (topSegment f.path)) []
        = (index.map (fun f => topSegment f.path)).foldl upsertCount [] by
      rw [List.foldl_map]]
  simpa using foldl_upsert_keys (index.map (fun f => topSegment f.path)) []

theorem jNodes_fallback (index : List FileRec) :
    jNodes (fallback_blueprint index) = (modulesOf index).map (fun m => mkNodeJ m.1) := rfl

theorem jEdges_fallback (index : List FileRec) :
    jEdges (fallback_blueprint index)
      = (((modulesOf index).map (fun m => slugify m.1)).zip
          ((modulesOf index).map (fun m => slugify m.1)).tail).map
            (fun p => mkEdgeJ p.1 p.2) := rfl

theorem jIds_fallback (index : List FileRec) :
    jIds (fallback_blueprint index) = (modulesOf index).map (fun m => slugify m.1) := by
  unfold jIds
  rw [jNodes_fallback, List.filterMap_map]
  generalize modulesOf index = ms
  induction ms with
  | nil => rfl
  | cons m t ih => simpa [List.filterMap_cons, mkNodeJ, jlookup] using ih

theorem jlookup_append (l : List (String × JVal)) (k : String) (d : JVal) (key : String) :
    jlookup (l ++ [(k, d)]) key
      = match jlookup l key with
        | some v => some v
        | none => if k = key then some d else none := by
  induction l with
  | nil => simp [jlookup]
  | cons a t ih =>
    obtain ⟨x, v⟩ := a
    by_cases hx : x = key
    · simp [jlookup, hx]
    · simp [jlookup, hx, ih]

theorem jlookup_setAssoc_ne (l : List (String × JVal)) (k : String) (x : JVal)
    (key : String) (h : key ≠ k) :
    jlookup (setAssoc l k x) key = jlookup l key := by
  induction l with
  | nil =>
    have hk : ¬ k = key := fun hh => h hh.symm
    simp [setAssoc, jlookup, hk]
  | cons a t ih =>
    obtain ⟨y, v⟩ := a
    by_cases hy : y = k
    · subst hy
      have hk : ¬ y = key := fun hh => h hh.symm
      simp [setAssoc, jlookup, hk]
    · simp only [setAssoc, if_neg hy, jlookup]
      by_cases hyk : y = key
      · simp [hyk]
      · simp [hyk, ih]

theorem setdefault_lookup_self (kvs : List (String × JVal)) (key : String) (d ns : JVal)
    (h : (jlookup kvs key).getD d = ns) :
    jlookup (if (jlookup kvs key).isSome then kvs else kvs ++ [(key, d)]) key
      = some ns := by
  cases hc : jlookup kvs key with
  | some v =>
    rw [hc] at h
    simp only [Option.getD_some] at h
    simp [hc, h]
  | none =>
    rw [hc] at h
    simp only [Option.getD_none] at h
    simp [hc, jlookup_append, h]

theorem setdefault_lookup_other (kvs : List (String × JVal)) (key : String) (d : JVal)
    (key2 : String) (hne : key ≠ key2) :
    jlookup (if (jlookup kvs key).isSome then kvs else kvs ++ [(key, d)]) key2
      = jlookup kvs key2 := by
  cases hc : jlookup kvs key with
  | some v => simp [hc]
  | none =>
    simp only [hc, Option.isSome_none, Bool.false_eq_true, if_false, jlookup_append]
    cases jlookup kvs key2 <;> simp [hne]

theorem seqEdgeLine_ok (e : JVal) (h : WFedge e) : ∃ s, seqEdgeLine e = .ok s := by
  obtain ⟨kvs, a, b, rfl, hf, ht⟩ := h
  simp only [seqEdgeLine, pyGet, pySub, hf, ht, pyGet, pySub]
  exact ⟨_, rfl⟩

theorem classNodeLine_ok (n : JVal) (h : WFnode n) : ∃ s, classNodeLine n = .ok s := by
  obtain ⟨kvs, i, l, rfl, hi, hl⟩ := h
  simp only [classNodeLine, pySub, hi, hl, pyGet, pySub]
  exact ⟨_, rfl⟩

theorem classEdgeLine_ok (e : JVal) (h : WFedge e) : ∃ s, classEdgeLine e = .ok s := by
  obtain ⟨kvs, a, b, rfl, hf, ht⟩ := h
  simp only [classEdgeLine, pyGet, pySub, hf, ht, pyGet, pySub]
  exact ⟨_, rfl⟩

theorem flowNodeLine_ok (n : JVal) (h : WFnode n) : ∃ s, flowNodeLine n = .ok s := by
  obtain ⟨kvs, i, l, rfl, hi, hl⟩ := h
  simp only [flowNodeLine, pySub, pyGet, hi, hl]
  split
  · exact ⟨_, rfl⟩
  · split
    · exact ⟨_, rfl⟩
    · split
      · exact ⟨_, rfl⟩
      · split
        · exact ⟨_, rfl⟩
        · split
          · exact ⟨_, rfl⟩
          · exact ⟨_, rfl⟩

theorem flowEdgeLine_ok (e : JVal) (h : WFedge e) : ∃ s, flowEdgeLine e = .ok s := by
  obtain ⟨kvs, a, b, rfl, hf, ht⟩ := h
  simp only [flowEdgeLine, pySub, pyGet, hf, ht]
  split
  · exact ⟨_, rfl⟩
  · exact ⟨_, rfl⟩

theorem forLines_ok (l : List JVal) (f : JVal → Except String String)
    (h : ∀ x ∈ l, ∃ s, f x = .ok s) : ∃ out, forLines l f = .ok out := by
  induction l with
  | nil => exact ⟨[], rfl⟩
  | cons x xs ih =>
    obtain ⟨y, hy⟩ := h x (List.mem_cons_self x xs)
    obtain ⟨ys, hys⟩ := ih (fun z hz => h z (List.mem_cons_of_mem x hz))
    exact ⟨y :: ys, by simp [forLines, hy, hys]⟩

theorem joinNL_cons_length_ge (p : List Char) (ps : List (List Char)) :
    p.length ≤ (joinNL (p :: ps)).length := by
  cases ps with
  | nil => exact Nat.le_refl _
  | cons q qs =>
    have hdef : joinNL (p :: q :: qs) = p ++ S "\n" ++ joinNL (q :: qs) := rfl
    rw [hdef]
    simp [List.length_append]

theorem strOfL_joinNL_ne (header : String) (lines : List String)
    (hh : 0 < header.length) :
    strOfL (joinNL ((header :: lines).map S)) ≠ "" := by
  intro hcontr
  have h4 : (strOfL (joinNL ((header :: lines).map S))).length
      = (joinNL ((header :: lines).map S)).length := rfl
  rw [hcontr] at h4
  have h5 : (joinNL (S header :: lines.map S)).length = 0 := by
    simpa [List.map_cons] using h4.symm
  have h3 := joinNL_cons_length_ge (S header) (lines.map S)
  have h6 : (S header).length = header.length := rfl
  omega

theorem blueprint_to_mermaid_ok (kvs : List (String × JVal)) (ns es : List JVal)
    (dt : String)
    (hns : (jlookup kvs "nodes").getD (.arr []) = .arr ns)
    (hes : (jlookup kvs "edges").getD (.arr []) = .arr es)
    (hwn : ∀ n ∈ ns, WFnode n) (hwe : ∀ e ∈ es, WFedge e) :
    ∃ s, blueprint_to_mermaid (.obj kvs) dt = .ok s ∧ s ≠ "" := by
  by_cases h1 : dt = "SEQUENCE_DIAGRAM"
  · subst h1
    obtain ⟨lines, hl⟩ := forLines_ok es seqEdgeLine (fun e he => seqEdgeLine_ok e (hwe e he))
    refine ⟨strOfL (joinNL (("sequenceDiagram" :: lines).map S)), ?_,
      strOfL_joinNL_ne _ _ (by decide)⟩
    simp [blueprint_to_mermaid, pyGet, hns, hes, pyIter, hl]
  · by_cases h2 : dt = "CLASS_DIAGRAM"
    · subst h2
      obtain ⟨nlines, hnl⟩ :=
        forLines_ok ns classNodeLine (fun n hn => classNodeLine_ok n (hwn n hn))
      obtain ⟨elines, hel⟩ :=
        forLines_ok es classEdgeLine (fun e he => classEdgeLine_ok e (hwe e he))
      refine ⟨strOfL (joinNL (("classDiagram" :: (nlines ++ elines)).map S)), ?_,
        strOfL_joinNL_ne _ _ (by decide)⟩
      simp [blueprint_to_mermaid, pyGet, hns, hes, pyIter, hnl, hel]
    · obtain ⟨nlines, hnl⟩ :=
        forLines_ok ns flowNodeLine (fun n hn => flowNodeLine_ok n (hwn n hn))
      obtain ⟨elines, hel⟩ :=
        forLines_ok es flowEdgeLine (fun e he => flowEdgeLine_ok e (hwe e he))
      simp only [blueprint_to_mermaid, pyGet, hns, hes, pyIter, hnl, hel,
        if_neg h1, if_neg h2]
      exact ⟨_, rfl, strOfL_joinNL_ne _ _ (by split_ifs <;> decide)⟩

theorem fallback_blueprint_WF (index : List FileRec) : WFBp (fallback_blueprint index) := by
  unfold WFBp
  refine ⟨_, _, _, rfl, rfl, rfl, ?_, ?_⟩
  · intro n hn
    rw [List.mem_map] at hn
    obtain ⟨m, hm, rfl⟩ := hn
    exact ⟨_, slugify m.1, m.1, rfl, rfl, rfl⟩
  · intro e he
    rw [List.mem_map] at he
    obtain ⟨p, hp, rfl⟩ := he
    exact ⟨_, p.1, p.2, rfl, rfl, rfl⟩

theorem generate_diagram_ok_of_WF (index : List FileRec) (dt focus : String)
    (outcome : Option JVal) (hne : index ≠ [])
    (hbp : WFBp (match outcome with | some v => v | none => fallback_blueprint index)) :
    ∃ r, generate_diagram index dt focus outcome = .ok r ∧ r.diagram ≠ "" := by
  obtain ⟨kvs, ns, es, hobj, hns, hes, hwn, hwe⟩ := hbp
  have hie : index.isEmpty = false := by
    cases index with
    | nil => exact absurd rfl hne
    | cons a t => rfl
  set kvs1 := if (jlookup kvs "nodes").isSome then kvs else kvs ++ [("nodes", JVal.arr [])]
    with hk1
  set kvs2 := if (jlookup kvs1 "edges").isSome then kvs1 else kvs1 ++ [("edges", JVal.arr [])]
    with hk2
  have h1n : jlookup kvs1 "nodes" = some (.arr ns) := by
    rw [hk1]
    exact setdefault_lookup_self kvs "nodes" (.arr []) (.arr ns) hns
  have h1e : jlookup kvs1 "edges" = jlookup kvs "edges" := by
    rw [hk1]
    exact setdefault_lookup_other kvs "nodes" (.arr []) "edges" (by decide)
  have h2n : jlookup kvs2 "nodes" = some (.arr ns) := by
    rw [hk2, setdefault_lookup_other kvs1 "edges" (.arr []) "nodes" (by decide)]
    exact h1n
  have h2e : jlookup kvs2 "edges" = some (.arr es) := by
    rw [hk2]
    exact setdefault_lookup_self kvs1 "edges" (.arr []) (.arr es) (by rw [h1e]; exact hes)
  set kvs3 := setAssoc kvs2 "metadata"
      (.obj [("node_count", JVal.num ns.length), ("edge_count", JVal.num es.length)])
    with hk3
  have h3n : jlookup kvs3 "nodes" = some (.arr ns) := by
    rw [hk3, jlookup_setAssoc_ne kvs2 "metadata" _ "nodes" (by decide)]
    exact h2n
  have h3e : jlookup kvs3 "edges" = some (.arr es) := by
    rw [hk3, jlookup_setAssoc_ne kvs2 "metadata" _ "edges" (by decide)]
    exact h2e
  obtain ⟨code, hcode, hcne⟩ :=
    blueprint_to_mermaid_ok kvs3 ns es dt (by rw [h3n]; rfl) (by rw [h3e]; rfl) hwn hwe
  have e1 : pySetdefault (.obj kvs) "nodes" (.arr []) = .ok (.obj kvs1) := by
    rw [hk1]; rfl
  have e2 : pySetdefault (.obj kvs1) "edges" (.arr []) = .ok (.obj kvs2) := by
    rw [hk2]; rfl
  have e3 : pySub (.obj kvs2) "nodes" = .ok (.arr ns) := by simp [pySub, h2n]
  have e5 : pySub (.obj kvs2) "edges" = .ok (.arr es) := by simp [pySub, h2e]
  have e7 : pySetKey (.obj kvs2) "metadata"
      (.obj [("node_count", JVal.num ns.length), ("edge_count", JVal.num es.length)])
      = .ok (.obj kvs3) := by
    rw [hk3]; rfl
  unfold generate_diagram
  simp only [hie, Bool.false_eq_true, if_false]
  rw [hobj]
  simp only [e1, e2, e3, e5, pyLen, e7, hcode, pyGet]
  exact ⟨_, rfl, hcne⟩

theorem flowNodeLine_spec (i l t : String) :
    flowNodeLine (mkNodeJ3 i l t) = .ok (strOfL (S "    " ++ specNodeShape i l t)) := by
  by_cases h1 : t = "database"
  · subst h1; rfl
  · by_cases h2 : t = "external"
    · subst h2; rfl
    · by_cases h3 : t = "actor"
      · subst h3; rfl
      · by_cases h4 : t = "module"
        · subst h4; rfl
        · by_cases h5 : t = "class"
          · subst h5; rfl
          · by_cases h6 : t = "service"
            · subst h6; rfl
            · have h0 : flowNodeLine (mkNodeJ3 i l t)
                  = (if jeqStr (.str t) "database" then
                       .ok ("    " ++ i ++ "[(" ++ l ++ ")]")
                     else if jeqStr (.str t) "external" then
                       .ok ("    " ++ i ++ "[/" ++ l ++ "/]")
                     else if jeqStr (.str t) "actor" then
                       .ok ("    " ++ i ++ "((" ++ l ++ "))")
                     else if jeqStr (.str t) "module" || jeqStr (.str t) "class" then
                       .ok ("    " ++ i ++ "[" ++ l ++ "]")
                     else if jeqStr (.str t) "service" then
                       .ok ("    " ++ i ++ "[" ++ l ++ "]")
                     else .ok ("    " ++ i ++ "[" ++ l ++ "]")) := rfl
              rw [h0]
              have hb1 : jeqStr (.str t) "database" = false := by simp [jeqStr, h1]
              have hb2 : jeqStr (.str t) "external" = false := by simp [jeqStr, h2]
              have hb3 : jeqStr (.str t) "actor" = false := by simp [jeqStr, h3]
              have hb4 : jeqStr (.str t) "module" = false := by simp [jeqStr, h4]
              have hb5 : jeqStr (.str t) "class" = false := by simp [jeqStr, h5]
              have hb6 : jeqStr (.str t) "service" = false := by simp [jeqStr, h6]
              simp only [hb1, hb2, hb3, hb4, hb5, hb6, Bool.or_self,
                Bool.false_eq_true, if_false, specNodeShape, if_neg h1, if_neg h2, if_neg h3]
              rfl

theorem flowEdgeLine_spec (a b lb : String) :
    flowEdgeLine (mkEdgeJ3 a b lb) = .ok (strOfL (S "    " ++ specEdgeLine a b lb)) := by
  by_cases h : lb = ""
  · subst h; rfl
  · have h0 : flowEdgeLine (mkEdgeJ3 a b lb)
        = (if pyTruthy (.str lb) then .ok ("    " ++ a ++ " -->|" ++ lb ++ "| " ++ b)
           else .ok ("    " ++ a ++ " --> " ++ b)) := rfl
    rw [h0]
    have hb : pyTruthy (.str lb) = true := by simp [pyTruthy, h]
    simp only [hb, if_true, specEdgeLine, if_neg h]
    rfl

theorem bpm_flow_single_node (node : JVal) (line : String)
    (h : flowNodeLine node = .ok line) :
    blueprint_to_mermaid (mkBp [node] []) "FLOWCHART"
      = .ok (strOfL (S "flowchart TD" ++ S "\n" ++ S line)) := by
  have hf : forLines [node] flowNodeLine = .ok [line] := by simp [forLines, h]
  have h1 : blueprint_to_mermaid (mkBp [node] []) "FLOWCHART"
      = (match forLines [node] flowNodeLine with
         | .error e => .error e
         | .ok nlines =>
           .ok (strOfL (joinNL (("flowchart TD" :: (nlines ++ [])).map S)))) := rfl
  rw [h1, hf]
  rfl

theorem bpm_arch_single_node (node : JVal) (line : String)
    (h : flowNodeLine node = .ok line) :
    blueprint_to_mermaid (mkBp [node] []) "ARCHITECTURE_DIAGRAM"
      = .ok (strOfL (S "graph TB" ++ S "\n" ++ S line)) := by
  have hf : forLines [node] flowNodeLine = .ok [line] := by simp [forLines, h]
  have h1 : blueprint_to_mermaid (mkBp [node] []) "ARCHITECTURE_DIAGRAM"
      = (match forLines [node] flowNodeLine with
         | .error e => .error e
         | .ok nlines =>
           .ok (strOfL (joinNL (("graph TB" :: (nlines ++ [])).map S)))) := rfl
  rw [h1, hf]
  rfl

theorem bpm_dfd_single_node (node : JVal) (line : String)
    (h : flowNodeLine node = .ok line) :
    blueprint_to_mermaid (mkBp [node] []) "DATA_FLOW_DIAGRAM"
      = .ok (strOfL (S "graph LR" ++ S "\n" ++ S line)) := by
  have hf : forLines [node] flowNodeLine = .ok [line] := by simp [forLines, h]
  have h1 : blueprint_to_mermaid (mkBp [node] []) "DATA_FLOW_DIAGRAM"
      = (match forLines [node] flowNodeLine with
         | .error e => .error e
         | .ok nlines =>
           .ok (strOfL (joinNL (("graph LR" :: (nlines ++ [])).map S)))) := rfl
  rw [h1, hf]
  rfl

theorem bpm_arch_single_edge (edge : JVal) (line : String)
    (h : flowEdgeLine edge = .ok line) :
    blueprint_to_mermaid (mkBp [] [edge]) "ARCHITECTURE_DIAGRAM"
      = .ok (strOfL (S "graph TB" ++ S "\n" ++ S line)) := by
  have hf : forLines [edge] flowEdgeLine = .ok [line] := by simp [forLines, h]
  have h1 : blueprint_to_mermaid (mkBp [] [edge]) "ARCHITECTURE_DIAGRAM"
      = (match forLines [edge] flowEdgeLine with
         | .error e => .error e
         | .ok elines =>
           .ok (strOfL (joinNL (("graph TB" :: ([] ++ elines)).map S)))) := rfl
  rw [h1, hf]
  rfl

theorem scoredOf_map_snd (question : String) (files : List FileRec) :
    (scoredOf question files).map Prod.snd = files := by
  induction files with
  | nil => rfl
  | cons f fs ih => simpa [scoredOf] using ih

/-!  ## Claim theorems  -/

/-- C1, counterexample: on a single file whose chunk overflows a budget of 201
with more than 200 units remaining, the key-snippet bundle is 236 characters
long — more than the budget (201) plus the truncation marker (15), because the
chunk header is prepended to the truncated prefix without being charged to the
budget. -/
theorem claim_C1_counterexample :
    201 + markerL.length
      < (get_key_snippets [⟨"a", "python", strOfL (List.replicate 300 'x')⟩] 201).length := by
  decide

/-- C1 (amended): both context-assembly builders stay within the requested
budget plus the truncation marker, plus the length of one chunk header and one
newline separator per file; the question builder may instead return the fixed
placeholder when no chunk was appended.  Chunks are appended whole until the
next would overflow, and a truncated prefix is appended only when more than
200 units of budget remain (the shape of `assembleParts`). -/
theorem claim_C1 (files : List FileRec) (max_chars : Nat) (question : String) :
    (get_key_snippets files max_chars).length
      ≤ max_chars + markerL.length + maxHd headerK files + files.length
    ∧ ((build_question_context question files max_chars).length
        ≤ max_chars + markerL.length + maxHd headerQ files + files.length
      ∨ build_question_context question files max_chars = S "(No relevant files found)") := by
  constructor
  · unfold get_key_snippets
    have hperm := sortByLt_perm keyLt files
    have h1 := joinNL_length_le (assembleParts headerK max_chars (sortByLt keyLt files) 0)
    have h2 := assembleParts_sum_le headerK max_chars (sortByLt keyLt files) 0
    have h3 := assembleParts_count_le headerK max_chars (sortByLt keyLt files) 0
    have h4 : maxHd headerK (sortByLt keyLt files) = maxHd headerK files :=
      maxHd_perm _ hperm
    have h5 : (sortByLt keyLt files).length = files.length := hperm.length_eq
    omega
  · have hdef : build_question_context question files max_chars
        = (if assembleParts headerQ max_chars
              ((sortByLt ltDesc (scoredOf question files)).map Prod.snd) 0 = []
           then S "(No relevant files found)"
           else joinNL (assembleParts headerQ max_chars
              ((sortByLt ltDesc (scoredOf question files)).map Prod.snd) 0)) := rfl
    rw [hdef]
    by_cases hp : assembleParts headerQ max_chars
        ((sortByLt ltDesc (scoredOf question files)).map Prod.snd) 0 = []
    · right
      rw [if_pos hp]
    · left
      rw [if_neg hp]
      have hperm : ((sortByLt ltDesc (scoredOf question files)).map Prod.snd).Perm files := by
        have h0 := (sortByLt_perm ltDesc (scoredOf question files)).map Prod.snd
        rwa [scoredOf_map_snd question files] at h0
      have h1 := joinNL_length_le (assembleParts headerQ max_chars
        ((sortByLt ltDesc (scoredOf question files)).map Prod.snd) 0)
      have h2 := assembleParts_sum_le headerQ max_chars
        ((sortByLt ltDesc (scoredOf question files)).map Prod.snd) 0
      have h3 := assembleParts_count_le headerQ max_chars
        ((sortByLt ltDesc (scoredOf question files)).map Prod.snd) 0
      have h4 : maxHd headerQ ((sortByLt ltDesc (scoredOf question files)).map Prod.snd)
          = maxHd headerQ files := maxHd_perm _ hperm
      have h5 : ((sortByLt ltDesc (scoredOf question files)).map Prod.snd).length
          = files.length := hperm.length_eq
      omega

/-- C2, counterexample: with a non-empty index, a successful LLM call whose
response parses to the JSON object `{"edges": [{}]}` makes `generate_diagram`
raise (`KeyError: from` inside `_blueprint_to_mermaid`) instead of returning a
result: diagram generation does not always fall back. -/
theorem claim_C2_counterexample :
    exOk (generate_diagram [⟨"a", "python", "x"⟩] "SEQUENCE_DIAGRAM" ""
      (some (JVal.obj [("edges", JVal.arr [JVal.obj []])]))) = false := by
  rfl

/-- C2 (amended): for every non-empty file index and every diagram type,
`generate_diagram` returns (rather than raises) a result with a non-empty
diagram text whenever the LLM call or the JSON parse of its response fails
(fallback path), or whenever the parsed response is a well-formed blueprint
object; a parse that succeeds with a malformed blueprint may still raise. -/
theorem claim_C2 (index : List FileRec) (diagram_type focus : String)
    (outcome : Option JVal) (hne : index ≠ [])
    (hwf : ∀ v, outcome = some v → WFBp v) :
    exOk (generate_diagram index diagram_type focus outcome) = true ∧
    diagramText (generate_diagram index diagram_type focus outcome) ≠ "" := by
  rcases houtcome : outcome with _ | v
  · obtain ⟨r, hr, hd⟩ :=
      generate_diagram_ok_of_WF index diagram_type focus none hne
        (fallback_blueprint_WF index)
    rw [hr]
    exact ⟨rfl, hd⟩
  · obtain ⟨r, hr, hd⟩ :=
      generate_diagram_ok_of_WF index diagram_type focus (some v) hne (hwf v houtcome)
    rw [hr]
    exact ⟨rfl, hd⟩

/-- C2, witness: a one-file index with a failed LLM call produces a non-empty
diagram through the fallback. -/
theorem claim_C2_witness :
    exOk (generate_diagram [⟨"src/a.py", "python", "import os"⟩] "FLOWCHART" "" none)
        = true ∧
    diagramText (generate_diagram [⟨"src/a.py", "python", "import os"⟩] "FLOWCHART" "" none)
        ≠ "" :=
  claim_C2 [⟨"src/a.py", "python", "import os"⟩] "FLOWCHART" "" none
    (List.cons_ne_nil _ _) (fun _ h => nomatch h)

/-- C3: an empty scan yields an empty index and empty language statistics, and
`ask` on an empty index returns the no-repository message for every question
without invoking the LLM oracle (invocation count 0). -/
theorem claim_C3 :
    (load_repository []).1 = [] ∧ (load_repository []).2 = [] ∧
    (∀ (summary question : String) (oracle : Oracle),
      ask [] summary question oracle
        = ("No repository loaded. Please load a repository first.", 0)) :=
  ⟨rfl, rfl, fun _ _ _ => rfl⟩

/-- C4, counterexample: for the question `"utils til database"` (which contains
the token `database`), the file `utils.py` — lacking `database` in its path and
(empty) content — scores 10 while the equal-content `database.py` scores only
5, because the other question tokens match the path `utils.py`; so
`database.py` does not score at least 5 higher. -/
theorem claim_C4_counterexample :
    (S "database" ∈ questionTokens "utils til database") ∧
    inStr (S "database") (lowerL "utils.py") = false ∧
    inStr (S "database") (lowerL "") = false ∧
    scoreFile (questionTokens "utils til database") ⟨"database.py", "python", ""⟩ = 5 ∧
    scoreFile (questionTokens "utils til database") ⟨"utils.py", "python", ""⟩ = 10 ∧
    ¬ (scoreFile (questionTokens "utils til database") ⟨"utils.py", "python", ""⟩ + 5
        ≤ scoreFile (questionTokens "utils til database") ⟨"database.py", "python", ""⟩) := by
  decide

/-- C4 (amended): scoring is 5 per distinct question token in the lowered path
plus 1 per distinct token in the lowered content; the sort is descending by
score, preserves each equal-score class in scan order, and permutes the scored
list; and the `database.py` vs `utils.py` instance holds provided additionally
that no question token occurs in the path `utils.py`. -/
theorem claim_C4 (question : String) (files : List FileRec) (lang content : String)
    (s : Nat)
    (hdb : S "database" ∈ questionTokens question)
    (hpath : ∀ w ∈ questionTokens question, inStr w (lowerL "utils.py") = false)
    (hcontent : inStr (S "database") (lowerL content) = false) :
    scoredOf question files
      = files.map (fun f =>
          (5 * (questionTokens question).countP (fun w => inStr w (lowerL f.path))
            + (questionTokens question).countP (fun w => inStr w (lowerL f.content)), f))
    ∧ (sortByLt ltDesc (scoredOf question files)).Pairwise (fun a b => b.1 ≤ a.1)
    ∧ (sortByLt ltDesc (scoredOf question files)).filter (fun p => p.1 == s)
        = (scoredOf question files).filter (fun p => p.1 == s)
    ∧ (sortByLt ltDesc (scoredOf question files)).Perm (scoredOf question files)
    ∧ scoreFile (questionTokens question) ⟨"utils.py", lang, content⟩ + 5
        ≤ scoreFile (questionTokens question) ⟨"database.py", lang, content⟩ := by
  refine ⟨?_, sortByLt_sorted_desc _, sortByLt_filter_desc _ s, sortByLt_perm _ _, ?_⟩
  · unfold scoredOf
    simp only [scoreFile_eq]
  · have h1 : scoreFile (questionTokens question) ⟨"utils.py", lang, content⟩
        = 5 * (questionTokens question).countP (fun w => inStr w (lowerL "utils.py"))
          + (questionTokens question).countP (fun w => inStr w (lowerL content)) :=
      scoreFile_eq _ _
    have h2 : scoreFile (questionTokens question) ⟨"database.py", lang, content⟩
        = 5 * (questionTokens question).countP (fun w => inStr w (lowerL "database.py"))
          + (questionTokens question).countP (fun w => inStr w (lowerL content)) :=
      scoreFile_eq _ _
    have hutils : (questionTokens question).countP
        (fun w => inStr w (lowerL "utils.py")) = 0 := by
      rw [List.countP_eq_zero]
      intro w hw
      simp [hpath w hw]
    have hdbp : 0 < (questionTokens question).countP
        (fun w => inStr w (lowerL "database.py")) := by
      rw [List.countP_pos]
      exact ⟨S "database", hdb, by decide⟩
    omega

/-- C4, witness: for the question "where is the database" the amended claim's
hypotheses hold and `database.py` beats `utils.py` by at least 5. -/
theorem claim_C4_witness :
    (S "database" ∈ questionTokens "where is the database") ∧
    inStr (S "database") (lowerL "print hello") = false ∧
    (scoreFile (questionTokens "where is the database") ⟨"utils.py", "python", "print hello"⟩ + 5
      ≤ scoreFile (questionTokens "where is the database")
          ⟨"database.py", "python", "print hello"⟩) :=
  ⟨by decide, by decide,
    (claim_C4 "where is the database" [] "python" "print hello" 0
      (by decide) (by decide) (by decide)).2.2.2.2⟩

/-- C5: the fallback blueprint has exactly one node per first-occurrence
top-level path segment (slugged id, segment label), a linear chain of edges
between consecutive node ids, and on the index `[src/a.py, docs/readme.md]`
exactly the two nodes `src`, `docs` and the single edge `src --> docs`. -/
theorem claim_C5 :
    (∀ index : List FileRec,
      jNodes (fallback_blueprint index)
          = (dedupFirst (index.map (fun f => topSegment f.path))).map mkNodeJ
        ∧ jEdges (fallback_blueprint index)
          = (((dedupFirst (index.map (fun f => topSegment f.path))).map slugify).zip
              ((dedupFirst (index.map (fun f => topSegment f.path))).map slugify).tail).map
                (fun p => mkEdgeJ p.1 p.2)) ∧
    jNodes (fallback_blueprint
        [⟨"src/a.py", "python", "x"⟩, ⟨"docs/readme.md", "markdown", "y"⟩])
      = [mkNodeJ "src", mkNodeJ "docs"] ∧
    jEdges (fallback_blueprint
        [⟨"src/a.py", "python", "x"⟩, ⟨"docs/readme.md", "markdown", "y"⟩])
      = [mkEdgeJ "src" "docs"] := by
  refine ⟨fun index => ⟨?_, ?_⟩, rfl, rfl⟩
  · rw [jNodes_fallback, ← modulesOf_keys, List.map_map]
    rfl
  · rw [jEdges_fallback, ← modulesOf_keys]
    simp only [List.map_map]
    rfl

/-- C6: the scanner excludes every file of size 0 or above 100,000 bytes, and
every file whose (lowered, `splitext`-style) extension is in the binary skip
set, regardless of size. -/
theorem claim_C6 (fname : String) (size : Nat) (content relPath : String) :
    ((size = 0 ∨ MAX_FILE_SIZE < size) → scanFile fname size content relPath = none) ∧
    (lowerS (splitextExt fname) ∈ SKIP_EXTENSIONS →
      scanFile fname size content relPath = none) := by
  have hred : scanFile fname size content relPath
      = (if lowerS (splitextExt fname) ∈ SKIP_EXTENSIONS then none
         else match alookup EXTENSION_MAP
             (if lowerS fname = "dockerfile" then ".dockerfile"
              else lowerS (splitextExt fname)) with
           | none => none
           | some language =>
             if MAX_FILE_SIZE < size ∨ size = 0 then none
             else some ⟨relPath, language, content⟩) := rfl
  constructor
  · intro hsz
    rw [hred]
    by_cases h1 : lowerS (splitextExt fname) ∈ SKIP_EXTENSIONS
    · rw [if_pos h1]
    · rw [if_neg h1]
      cases alookup EXTENSION_MAP
          (if lowerS fname = "dockerfile" then ".dockerfile"
           else lowerS (splitextExt fname)) with
      | none => rfl
      | some language =>
        show (if MAX_FILE_SIZE < size ∨ size = 0 then none
              else some (⟨relPath, language, content⟩ : FileRec)) = none
        rw [if_pos (hsz.elim Or.inr Or.inl)]
  · intro hext
    rw [hred, if_pos hext]

/-- C6, witness: an empty `b.py` and a small `a.png` are both excluded. -/
theorem claim_C6_witness :
    scanFile "b.py" 0 "x" "b.py" = none ∧ scanFile "a.png" 5 "y" "a.png" = none :=
  ⟨(claim_C6 "b.py" 0 "x" "b.py").1 (Or.inl rfl),
    (claim_C6 "a.png" 5 "y" "a.png").2 (by decide)⟩

/-- C7: every file literally named `Dockerfile` that the scanner includes is
tagged with the `dockerfile` language. -/
theorem claim_C7 (size : Nat) (content relPath : String) (r : FileRec)
    (h : scanFile "Dockerfile" size content relPath = some r) :
    r.language = "dockerfile" := by
  have hred : scanFile "Dockerfile" size content relPath
      = if MAX_FILE_SIZE < size ∨ size = 0 then none
        else some ⟨relPath, "dockerfile", content⟩ := rfl
  rw [hred] at h
  split at h
  · exact absurd h (by simp)
  · injection h with h2
    rw [← h2]

/-- C7, witness: a 5-byte `Dockerfile` is included and tagged `dockerfile`. -/
theorem claim_C7_witness :
    (⟨"Dockerfile", "dockerfile", "FROM x"⟩ : FileRec).language = "dockerfile" :=
  claim_C7 5 "FROM x" "Dockerfile" ⟨"Dockerfile", "dockerfile", "FROM x"⟩ rfl

/-- C8: rendering one database node `a`/`A` in the flowchart dialect yields
exactly `flowchart TD` followed by the cylinder line `    a[(A)]` and no edge
lines; generally, single-node blueprints render with the type-dependent
bracket shape in all three flowchart-family dialects, and a single edge
renders as `from --> to`, or `from -->|label| to` when labelled. -/
theorem claim_C8 :
    (blueprint_to_mermaid (mkBp [mkNodeJ3 "a" "A" "database"] []) "FLOWCHART"
        = .ok "flowchart TD\n    a[(A)]") ∧
    (∀ i l t : String,
      blueprint_to_mermaid (mkBp [mkNodeJ3 i l t] []) "FLOWCHART"
          = .ok (strOfL (S "flowchart TD\n    " ++ specNodeShape i l t))
        ∧ blueprint_to_mermaid (mkBp [mkNodeJ3 i l t] []) "ARCHITECTURE_DIAGRAM"
          = .ok (strOfL (S "graph TB\n    " ++ specNodeShape i l t))
        ∧ blueprint_to_mermaid (mkBp [mkNodeJ3 i l t] []) "DATA_FLOW_DIAGRAM"
          = .ok (strOfL (S "graph LR\n    " ++ specNodeShape i l t))) ∧
    (∀ a b lb : String,
      blueprint_to_mermaid (mkBp [] [mkEdgeJ3 a b lb]) "ARCHITECTURE_DIAGRAM"
        = .ok (strOfL (S "graph TB\n    " ++ specEdgeLine a b lb))) := by
  refine ⟨rfl, fun i l t => ⟨?_, ?_, ?_⟩, fun a b lb => ?_⟩
  · exact bpm_flow_single_node _ _ (flowNodeLine_spec i l t)
  · exact bpm_arch_single_node _ _ (flowNodeLine_spec i l t)
  · exact bpm_dfd_single_node _ _ (flowNodeLine_spec i l t)
  · exact bpm_arch_single_edge _ _ (flowEdgeLine_spec a b lb)

/-- C9: every edge of the fallback blueprint references declared node ids in
both its `from` and `to` fields. -/
theorem claim_C9 (index : List FileRec) :
    (jEdges (fallback_blueprint index)).all
      (edgeRefsOk (jIds (fallback_blueprint index))) = true := by
  rw [List.all_eq_true]
  intro e he
  rw [jEdges_fallback, List.mem_map] at he
  obtain ⟨p, hp, rfl⟩ := he
  have hmem := List.of_mem_zip hp
  have h1 : p.1 ∈ (modulesOf index).map (fun m => slugify m.1) := hmem.1
  have h2 : p.2 ∈ (modulesOf index).map (fun m => slugify m.1) :=
    List.mem_of_mem_tail hmem.2
  rw [jIds_fallback]
  simp [edgeRefsOk, mkEdgeJ, jlookup, h1, h2]

/-- C10: `ask` and `generate_diagram` leave the whole session state (repo
path, file index, cached summary, pending clone directory) unchanged. -/
theorem claim_C10 (s : AgentState) (question : String) (oracle : Oracle)
    (diagram_type focus : String) (outcome : Option JVal) :
    (askS s question oracle).1 = s ∧
    (generate_diagramS s diagram_type focus outcome).1 = s :=
  ⟨rfl, rfl⟩
